import Mathlib

/-!
Shallow embedding of `src/storage/filesystem.go` (package `storage`):
a name-addressed file store over a local filesystem, with an atomic
temp-file-then-rename write path and a per-instance readers-writer lock.

Modelling choices:

* The filesystem is a finite map from paths to byte contents (`FS`),
  paths and names are character lists, bytes are `Nat`s.
* Fallible OS primitives are driven by an explicit fault-injection
  parameter (`Option WriteStage` for the write path, a `Bool` for the
  read/remove paths); the embedding computes the Go function's result,
  the final filesystem, and a trace of the primitive events it performed
  (including lock acquisition/release), so temporal claims about step
  order and lock placement are statements about the trace.
* `ioutil.TempFile(dir, file)` picks a fresh name `file + <random>` inside
  `dir`; the random part is the explicit `suffix` parameter.  Freshness of
  the chosen name (guaranteed by `TempFile`) corresponds to `suffix ≠ []`,
  which makes the temp path strictly longer than the destination path.
* `strings.TrimSpace` is modelled at the byte level for ASCII whitespace
  (space, TAB, LF, VT, FF, CR); the source additionally trims multi-byte
  Unicode whitespace, which is irrelevant to the claims checked here.
* The deferred `f.Close()` that runs after an explicit successful or
  failing `Close` is a no-op whose error Go discards; it is not traced.
* `io.Copy` may write a partial prefix before failing; the claims never
  inspect the temp file's content on that path, so the model leaves the
  temp file empty when the copy step faults.
-/

namespace storage

/-- File contents: a sequence of bytes. -/
abbrev Bytes := List Nat

/-- A filesystem path, as a character sequence. -/
abbrev FPath := List Char

/-- A logical name (Go type `FSName`), opaque to the store. -/
abbrev FSName := List Char

/-- The filesystem state: an association list from paths to contents. -/
structure FS where
  files : List (FPath × Bytes)
deriving DecidableEq

/-- Content stored at path `p`, if any. -/
def FS.lookup (fs : FS) (p : FPath) : Option Bytes :=
  (fs.files.find? (fun e => e.1 = p)).map (fun e => e.2)

/-- Create or fully replace the file at `p` with content `b`. -/
def FS.set (fs : FS) (p : FPath) (b : Bytes) : FS :=
  ⟨(p, b) :: fs.files.filter (fun e => ¬ (e.1 = p))⟩

/-- Delete the file at `p` (no-op when absent). -/
def FS.erase (fs : FS) (p : FPath) : FS :=
  ⟨fs.files.filter (fun e => ¬ (e.1 = p))⟩

/-- A Go byte is ASCII whitespace (the ASCII part of `unicode.IsSpace`). -/
def isSpaceByte (b : Nat) : Bool :=
  b == 32 || b == 9 || b == 10 || b == 11 || b == 12 || b == 13

/-- `strings.TrimSpace` at the byte level: drop leading and trailing
whitespace bytes. -/
def trimSpace (s : Bytes) : Bytes :=
  List.rdropWhile isSpaceByte (List.dropWhile isSpaceByte s)

/-- Go error values as the store produces them: a base OS error
(`*os.PathError`, carrying whether it is an is-not-exist error, the OS
operation, and the path), or a message-wrapped error
(`errors.WithMessage`). -/
inductive GoErr
  | io (notExist : Bool) (op : String) (path : FPath)
  | wrap (msg : String) (err : GoErr)
deriving DecidableEq

/-- `os.IsNotExist`: true only for a base not-exist OS error
(`errors.WithMessage` wrappers do not satisfy it). -/
def GoErr.isNotExist : GoErr → Bool
  | .io ne _ _ => ne
  | .wrap _ _ => false

/-- The five fallible steps of the atomic write path, as fault-injection
sites. -/
inductive WriteStage
  | createTemp
  | copyContent
  | syncTemp
  | closeTemp
  | replaceDest
deriving DecidableEq

/-- Primitive events performed by the write path, in order. -/
inductive Ev
  | createTemp (temp : FPath)
  | copy (temp : FPath)
  | sync (temp : FPath)
  | close (temp : FPath)
  | lock
  | unlock
  | replace (src dst : FPath)
  | removeTemp (temp : FPath)
deriving DecidableEq

/-- Result of a write-path call: the returned Go error (if any), the final
filesystem, and the event trace. -/
structure WOut where
  res : Option GoErr
  fs : FS
  trace : List Ev
deriving DecidableEq

/-- `filepath.Split`: split a path at its final `/` into
(directory-with-trailing-slash, base name). -/
def splitPath (p : FPath) : FPath × FPath :=
  let r := p.reverse
  ((r.dropWhile (fun c => c != '/')).reverse, (r.takeWhile (fun c => c != '/')).reverse)

/-- The temp-file path `ioutil.TempFile(dir, file)` creates for
destination `dst`: parent directory (`.` when the path has no directory
component) ++ base name ++ random suffix. -/
def tempPath (dst : FPath) (suffix : List Char) : FPath :=
  let ps := splitPath dst
  (if ps.1 = [] then ['.'] else ps.1) ++ ps.2 ++ suffix

/-- The deferred `os.Remove(f.Name())`: best-effort removal of the temp
file; when the removal itself fails the filesystem keeps the file and the
error is discarded. -/
def deferCleanup (fs : FS) (temp : FPath) (cleanupFails : Bool) : FS :=
  if cleanupFails then fs else fs.erase temp

/-- `setFile` (filesystem.go lines 69–97): the atomic write protocol.
Split the resolved destination, fall back to `.` for an empty directory
part, create a temp file in that directory, copy the stream into it, sync
it, close it, take the exclusive lock when `block` is set, then atomically
replace the destination.  Each failing step returns its error wrapped with
the stage message.  Deferred actions run in LIFO order at exit: the
unlock (when armed), the untraced no-op `f.Close()`, and the best-effort
`os.Remove` of the temp file. -/
def setFile (resolve : FSName → FPath) (fs : FS) (name : FSName) (content : Bytes)
    (block : Bool) (suffix : List Char) (fault : Option WriteStage)
    (cleanupFails : Bool) : WOut :=
  let dst := resolve name
  let temp := tempPath dst suffix
  if fault = some WriteStage.createTemp then
    { res := some (GoErr.wrap "create temp file" (GoErr.io false "open" temp)),
      fs := fs,
      trace := [Ev.createTemp temp] }
  else
    let fs1 := fs.set temp []
    if fault = some WriteStage.copyContent then
      { res := some (GoErr.wrap "save file" (GoErr.io false "write" temp)),
        fs := deferCleanup fs1 temp cleanupFails,
        trace := [Ev.createTemp temp, Ev.copy temp, Ev.removeTemp temp] }
    else
      let fs2 := fs1.set temp content
      if fault = some WriteStage.syncTemp then
        { res := some (GoErr.wrap "sync changes" (GoErr.io false "sync" temp)),
          fs := deferCleanup fs2 temp cleanupFails,
          trace := [Ev.createTemp temp, Ev.copy temp, Ev.sync temp, Ev.removeTemp temp] }
      else if fault = some WriteStage.closeTemp then
        { res := some (GoErr.wrap "close file" (GoErr.io false "close" temp)),
          fs := deferCleanup fs2 temp cleanupFails,
          trace := [Ev.createTemp temp, Ev.copy temp, Ev.sync temp, Ev.close temp,
                    Ev.removeTemp temp] }
      else if fault = some WriteStage.replaceDest then
        { res := some (GoErr.wrap "replace file" (GoErr.io false "rename" dst)),
          fs := deferCleanup fs2 temp cleanupFails,
          trace := [Ev.createTemp temp, Ev.copy temp, Ev.sync temp, Ev.close temp]
                   ++ (if block then [Ev.lock] else []) ++ [Ev.replace temp dst]
                   ++ (if block then [Ev.unlock] else []) ++ [Ev.removeTemp temp] }
      else
        { res := none,
          fs := deferCleanup ((fs2.erase temp).set dst content) temp cleanupFails,
          trace := [Ev.createTemp temp, Ev.copy temp, Ev.sync temp, Ev.close temp]
                   ++ (if block then [Ev.lock] else []) ++ [Ev.replace temp dst]
                   ++ (if block then [Ev.unlock] else []) ++ [Ev.removeTemp temp] }

/-- `SetFile` (public entry point): always delegates to the internal write
path with locking requested (`block = true`); there is no opt-out
parameter in its signature. -/
def SetFile (resolve : FSName → FPath) (fs : FS) (name : FSName) (content : Bytes)
    (suffix : List Char) (fault : Option WriteStage) (cleanupFails : Bool) : WOut :=
  setFile resolve fs name content true suffix fault cleanupFails

/-- Modelled from the spec: `atomic.WriteFile` of the external library
`github.com/natefinch/atomic` (not part of this repository's source),
following the spec's atomic write protocol (§4.1 steps 1–5 and 7–9,
locking excluded — the caller holds the lock): create a fresh temp file in
the destination's directory, copy the content, sync, close, atomically
replace the destination, with best-effort removal of the temp file and
stage-wrapped errors; the destination is untouched on failure. -/
def atomicWriteFile (fs : FS) (dst : FPath) (content : Bytes) (suffix : List Char)
    (fault : Option WriteStage) : WOut :=
  let temp := tempPath dst suffix
  if fault = some WriteStage.createTemp then
    { res := some (GoErr.wrap "create temp file" (GoErr.io false "open" temp)),
      fs := fs,
      trace := [Ev.createTemp temp] }
  else
    let fs1 := fs.set temp []
    if fault = some WriteStage.copyContent then
      { res := some (GoErr.wrap "save file" (GoErr.io false "write" temp)),
        fs := fs1.erase temp,
        trace := [Ev.createTemp temp, Ev.copy temp, Ev.removeTemp temp] }
    else
      let fs2 := fs1.set temp content
      if fault = some WriteStage.syncTemp then
        { res := some (GoErr.wrap "sync changes" (GoErr.io false "sync" temp)),
          fs := fs2.erase temp,
          trace := [Ev.createTemp temp, Ev.copy temp, Ev.sync temp, Ev.removeTemp temp] }
      else if fault = some WriteStage.closeTemp then
        { res := some (GoErr.wrap "close file" (GoErr.io false "close" temp)),
          fs := fs2.erase temp,
          trace := [Ev.createTemp temp, Ev.copy temp, Ev.sync temp, Ev.close temp,
                    Ev.removeTemp temp] }
      else if fault = some WriteStage.replaceDest then
        { res := some (GoErr.wrap "replace file" (GoErr.io false "rename" dst)),
          fs := fs2.erase temp,
          trace := [Ev.createTemp temp, Ev.copy temp, Ev.sync temp, Ev.close temp,
                    Ev.replace temp dst, Ev.removeTemp temp] }
      else
        { res := none,
          fs := ((fs2.erase temp).set dst content).erase temp,
          trace := [Ev.createTemp temp, Ev.copy temp, Ev.sync temp, Ev.close temp,
                    Ev.replace temp dst, Ev.removeTemp temp] }

/-- `setString` (filesystem.go lines 50–53): trim the value and write the
resulting bytes to the resolved path through `atomic.WriteFile`. -/
def setString (resolve : FSName → FPath) (fs : FS) (name : FSName) (value : Bytes)
    (suffix : List Char) (fault : Option WriteStage) : WOut :=
  atomicWriteFile fs (resolve name) (trimSpace value) suffix fault

/-- `SetString` (public entry point): acquire the exclusive lock, run
`setString`, release the lock on return (via `defer`). -/
def SetString (resolve : FSName → FPath) (fs : FS) (name : FSName) (value : Bytes)
    (suffix : List Char) (fault : Option WriteStage) : WOut :=
  let w := setString resolve fs name value suffix fault
  { w with trace := Ev.lock :: (w.trace ++ [Ev.unlock]) }

/-- `ioutil.ReadFile`: not-exist error when the path is absent; an
injected I/O fault models any other read failure. -/
def readFile (fs : FS) (p : FPath) (ioFault : Bool) : Except GoErr Bytes :=
  match fs.lookup p with
  | none => Except.error (GoErr.io true "open" p)
  | some b => if ioFault then Except.error (GoErr.io false "read" p) else Except.ok b

/-- `getString` (filesystem.go lines 36–42): read the whole file at the
resolved path and trim surrounding whitespace; errors pass through
unwrapped. -/
def getString (resolve : FSName → FPath) (fs : FS) (name : FSName) (ioFault : Bool) :
    Except GoErr Bytes :=
  match readFile fs (resolve name) ioFault with
  | Except.error e => Except.error e
  | Except.ok b => Except.ok (trimSpace b)

/-- `GetString` (public entry point): shared-lock around `getString`; the
call is read-only, so it returns the filesystem unchanged. -/
def GetString (resolve : FSName → FPath) (fs : FS) (name : FSName) (ioFault : Bool) :
    Except GoErr Bytes × FS :=
  (getString resolve fs name ioFault, fs)

/-- `getFile` (filesystem.go lines 61–63): `os.Open` at the resolved path;
the returned handle is modelled by the content visible through it at open
time. -/
def getFile (resolve : FSName → FPath) (fs : FS) (name : FSName) (ioFault : Bool) :
    Except GoErr Bytes :=
  match fs.lookup (resolve name) with
  | none => Except.error (GoErr.io true "open" (resolve name))
  | some b =>
    if ioFault then Except.error (GoErr.io false "open" (resolve name)) else Except.ok b

/-- `GetFile` (public entry point): shared-lock around the open; read-only. -/
def GetFile (resolve : FSName → FPath) (fs : FS) (name : FSName) (ioFault : Bool) :
    Except GoErr Bytes × FS :=
  (getFile resolve fs name ioFault, fs)

/-- `removeFile` (filesystem.go lines 105–107): `os.Remove` at the
resolved path; not-exist error when absent, injected fault models any
other failure. -/
def removeFile (resolve : FSName → FPath) (fs : FS) (name : FSName) (ioFault : Bool) :
    Option GoErr × FS :=
  match fs.lookup (resolve name) with
  | none => (some (GoErr.io true "remove" (resolve name)), fs)
  | some _ =>
    if ioFault then (some (GoErr.io false "remove" (resolve name)), fs)
    else (none, fs.erase (resolve name))

/-- `RemoveFile` (public entry point): exclusive lock around `removeFile`. -/
def RemoveFile (resolve : FSName → FPath) (fs : FS) (name : FSName) (ioFault : Bool) :
    Option GoErr × FS :=
  removeFile resolve fs name ioFault

/-- The preparatory I/O steps of the write protocol (everything before the
replace): temp creation, copy, sync, close. -/
def isPrep : Ev → Bool
  | .createTemp _ => true
  | .copy _ => true
  | .sync _ => true
  | .close _ => true
  | _ => false

/-- Is this event the atomic replace? -/
def isReplaceEv : Ev → Bool
  | .replace _ _ => true
  | _ => false

/-- Annotate each event of a trace with the number of exclusive locks held
while it executes (lock events count the surrounding depth consistently:
`lock` is annotated with the depth before acquiring, `unlock` with the
depth after releasing). -/
def withDepth : List Ev → Nat → List (Ev × Nat)
  | [], _ => []
  | Ev.lock :: r, d => (Ev.lock, d) :: withDepth r (d + 1)
  | Ev.unlock :: r, d => (Ev.unlock, d - 1) :: withDepth r (d - 1)
  | e :: r, d => (e, d) :: withDepth r d

/-- Every preparatory I/O step of the trace runs without holding the
exclusive lock. -/
def prepUnlocked (tr : List Ev) : Bool :=
  (withDepth tr 0).all (fun p => !(isPrep p.1) || p.2 == 0)

/-- Every preparatory I/O step of the trace runs while holding the
exclusive lock. -/
def prepLocked (tr : List Ev) : Bool :=
  (withDepth tr 0).all (fun p => !(isPrep p.1) || decide (0 < p.2))

/-- Every atomic replace of the trace runs while holding the exclusive
lock. -/
def replacesLocked (tr : List Ev) : Bool :=
  (withDepth tr 0).all (fun p => !(isReplaceEv p.1) || decide (0 < p.2))

/-- Every lock acquisition of the trace is immediately followed by the
atomic replace. -/
def lockJustBeforeReplace : List Ev → Bool
  | [] => true
  | Ev.lock :: Ev.replace _ _ :: r => lockJustBeforeReplace r
  | Ev.lock :: _ => false
  | _ :: r => lockJustBeforeReplace r

/-! ### Concrete example inputs (used to evaluate the model at specific
points) -/

/-- Example path resolver: the identity mapping. -/
def exResolve : FSName → FPath := fun n => n

/-- Example logical name `db`. -/
def exName : FSName := ['d', 'b']

/-- Example empty filesystem. -/
def exFS : FS := ⟨[]⟩

/-- Example filesystem with one stored file: `db` ↦ `1`. -/
def exFS1 : FS := ⟨[(['d', 'b'], [49])]⟩

/-- Example temp-name random suffix chosen by `TempFile`. -/
def exSuffix : List Char := ['0']

/-- The bytes of the spec's example string `"  hello  "`. -/
def exValue : Bytes := [32, 32, 104, 101, 108, 108, 111, 32, 32]

/-- An arbitrary binary payload with an embedded null byte and a
non-UTF-8 byte. -/
def exBinary : Bytes := [0, 255, 10, 32]

/-! ### Helper lemmas about the filesystem map, paths and trimming -/

theorem find_filter_ne (l : List (FPath × Bytes)) (p q : FPath) (h : q ≠ p) :
    (l.filter (fun e => ¬ (e.1 = p))).find? (fun e => e.1 = q)
      = l.find? (fun e => e.1 = q) := by
  rw [List.find?_filter]
  congr 1
  funext a
  by_cases hq : a.1 = q
  · have hp : ¬ (a.1 = p) := fun hh => h (hq.symm.trans hh)
    simp [hq, hp, h]
  · simp [hq]

theorem find_filter_self (l : List (FPath × Bytes)) (p : FPath) :
    (l.filter (fun e => ¬ (e.1 = p))).find? (fun e => e.1 = p) = none := by
  rw [List.find?_filter, List.find?_eq_none]
  intro x _
  by_cases hp : x.1 = p <;> simp [hp]

theorem FS.lookup_set (fs : FS) (p q : FPath) (b : Bytes) :
    (fs.set p b).lookup q = if q = p then some b else fs.lookup q := by
  unfold FS.set FS.lookup
  by_cases h : q = p
  · subst h
    rw [if_pos rfl, List.find?_cons_of_pos _ (by simp)]
    rfl
  · rw [if_neg h, List.find?_cons_of_neg _ (by simp [Ne.symm h]),
      find_filter_ne _ _ _ h]

theorem FS.lookup_erase (fs : FS) (p q : FPath) :
    (fs.erase p).lookup q = if q = p then none else fs.lookup q := by
  unfold FS.erase FS.lookup
  by_cases h : q = p
  · subst h
    rw [if_pos rfl, find_filter_self]
    rfl
  · rw [if_neg h, find_filter_ne _ _ _ h]

theorem splitPath_append (p : FPath) : (splitPath p).1 ++ (splitPath p).2 = p := by
  show (p.reverse.dropWhile _).reverse ++ (p.reverse.takeWhile _).reverse = p
  rw [← List.reverse_append, List.takeWhile_append_dropWhile, List.reverse_reverse]

theorem tempPath_ne_dst (dst : FPath) (suffix : List Char) (hs : suffix ≠ []) :
    tempPath dst suffix ≠ dst := by
  intro h
  have h2 : (splitPath dst).1.length + (splitPath dst).2.length = dst.length := by
    have h4 := congrArg List.length (splitPath_append dst)
    rwa [List.length_append] at h4
  have h3 : 0 < suffix.length := List.length_pos.mpr hs
  have hlen := congrArg List.length h
  unfold tempPath at hlen
  rw [List.length_append, List.length_append] at hlen
  by_cases hd : (splitPath dst).1 = []
  · rw [hd] at h2
    rw [if_pos hd] at hlen
    simp only [List.length_cons, List.length_nil] at hlen h2
    omega
  · rw [if_neg hd] at hlen
    omega

theorem dropWhile_of_rdrop_drop (p : Nat → Bool) (l : List Nat) :
    List.dropWhile p (List.rdropWhile p (List.dropWhile p l))
      = List.rdropWhile p (List.dropWhile p l) := by
  rw [List.dropWhile_eq_self_iff]
  intro hl
  have hpre := List.rdropWhile_prefix p (List.dropWhile p l)
  have hlt : 0 < (List.dropWhile p l).length := lt_of_lt_of_le hl hpre.length_le
  have hg := List.dropWhile_get_zero_not p l hlt
  have heq : (List.rdropWhile p (List.dropWhile p l)).get ⟨0, hl⟩
      = (List.dropWhile p l).get ⟨0, hlt⟩ := by
    simp only [List.get_eq_getElem]
    exact hpre.getElem hl
  rw [heq]
  exact hg

theorem trimSpace_idem (s : Bytes) : trimSpace (trimSpace s) = trimSpace s := by
  unfold trimSpace
  rw [dropWhile_of_rdrop_drop, List.rdropWhile_idempotent]

theorem trimSpace_nil : trimSpace [] = [] := rfl

/-! ### Claim theorems -/

/-- C1: for every name and every input, if a write (`SetString` or
`SetFile`) returns an error, the content stored at the resolved
destination path is exactly what it was before the call: every failure at
temp-file creation, content copy, sync or close occurs before the atomic
replace, and a failed replace leaves the destination unchanged.  (The
hypothesis is `TempFile`'s freshness guarantee: the random suffix of the
temp name is nonempty.) -/
theorem C1_failed_write_leaves_destination_unchanged
    (resolve : FSName → FPath) (fs : FS) (name : FSName) (value content : Bytes)
    (suffix : List Char) (fault : Option WriteStage) (cleanupFails : Bool)
    (hs : suffix ≠ []) :
    ((SetString resolve fs name value suffix fault).res.isSome →
      (SetString resolve fs name value suffix fault).fs.lookup (resolve name)
        = fs.lookup (resolve name)) ∧
    ((SetFile resolve fs name content suffix fault cleanupFails).res.isSome →
      (SetFile resolve fs name content suffix fault cleanupFails).fs.lookup (resolve name)
        = fs.lookup (resolve name)) := by
  have hne := Ne.symm (tempPath_ne_dst (resolve name) suffix hs)
  constructor
  · rcases fault with _ | stage
    · intro h
      simp [SetString, setString, atomicWriteFile] at h
    · intro _
      cases stage <;>
        simp [SetString, setString, atomicWriteFile, FS.lookup_erase, FS.lookup_set, hne]
  · rcases fault with _ | stage
    · intro h
      simp [SetFile, setFile, atomicWriteFile] at h
    · intro _
      cases stage <;> cases cleanupFails <;>
        simp [SetFile, setFile, deferCleanup, FS.lookup_erase, FS.lookup_set, hne]

/-- C1 witness: at a concrete store holding `db` ↦ `1`, a sync-stage
failure of `SetString` and a replace-stage failure of `SetFile` both leave
the stored content at the resolved destination unchanged. -/
theorem C1_witness :
    (SetString exResolve exFS1 exName exValue exSuffix
        (some WriteStage.syncTemp)).fs.lookup (exResolve exName)
      = exFS1.lookup (exResolve exName) ∧
    (SetFile exResolve exFS1 exName exBinary exSuffix
        (some WriteStage.replaceDest) true).fs.lookup (exResolve exName)
      = exFS1.lookup (exResolve exName) :=
  ⟨(C1_failed_write_leaves_destination_unchanged exResolve exFS1 exName exValue exBinary
      exSuffix (some WriteStage.syncTemp) true (by decide)).1 (by decide),
   (C1_failed_write_leaves_destination_unchanged exResolve exFS1 exName exValue exBinary
      exSuffix (some WriteStage.replaceDest) true (by decide)).2 (by decide)⟩

/-- C2: `SetFile` follows the atomic write protocol in this exact order —
split the resolved destination into parent directory (falling back to `.`
when there is no directory component) and base name, create a temp file in
that parent directory named after the base name, copy the full stream
content into it, sync it, close it, then atomically replace the
destination — and a failure at any of these steps is returned wrapped with
the corresponding stage message `create temp file`, `save file`,
`sync changes`, `close file` or `replace file`. -/
theorem C2_setFile_protocol_order_and_stage_messages
    (resolve : FSName → FPath) (fs : FS) (name : FSName) (content : Bytes)
    (suffix : List Char) (cleanupFails : Bool) :
    (SetFile resolve fs name content suffix none cleanupFails).res = none ∧
    (SetFile resolve fs name content suffix none cleanupFails).trace
      = [Ev.createTemp (tempPath (resolve name) suffix),
         Ev.copy (tempPath (resolve name) suffix),
         Ev.sync (tempPath (resolve name) suffix),
         Ev.close (tempPath (resolve name) suffix),
         Ev.lock,
         Ev.replace (tempPath (resolve name) suffix) (resolve name),
         Ev.unlock,
         Ev.removeTemp (tempPath (resolve name) suffix)] ∧
    tempPath (resolve name) suffix
      = (if (splitPath (resolve name)).1 = [] then ['.'] else (splitPath (resolve name)).1)
        ++ (splitPath (resolve name)).2 ++ suffix ∧
    (SetFile resolve fs name content suffix (some WriteStage.createTemp) cleanupFails).res
      = some (GoErr.wrap "create temp file"
          (GoErr.io false "open" (tempPath (resolve name) suffix))) ∧
    (SetFile resolve fs name content suffix (some WriteStage.copyContent) cleanupFails).res
      = some (GoErr.wrap "save file"
          (GoErr.io false "write" (tempPath (resolve name) suffix))) ∧
    (SetFile resolve fs name content suffix (some WriteStage.syncTemp) cleanupFails).res
      = some (GoErr.wrap "sync changes"
          (GoErr.io false "sync" (tempPath (resolve name) suffix))) ∧
    (SetFile resolve fs name content suffix (some WriteStage.closeTemp) cleanupFails).res
      = some (GoErr.wrap "close file"
          (GoErr.io false "close" (tempPath (resolve name) suffix))) ∧
    (SetFile resolve fs name content suffix (some WriteStage.replaceDest) cleanupFails).res
      = some (GoErr.wrap "replace file" (GoErr.io false "rename" (resolve name))) := by
  refine ⟨?_, ?_, rfl, ?_, ?_, ?_, ?_, ?_⟩ <;> simp [SetFile, setFile, tempPath]

/-- C3: for every name `n` and value `v`, a successful `SetString(n, v)`
followed by `GetString(n)` returns `v` with leading and trailing
whitespace trimmed, and trimming is idempotent (the returned value is
unchanged by further trimming). -/
theorem C3_setString_getString_roundtrip_trims
    (resolve : FSName → FPath) (fs : FS) (name : FSName) (value : Bytes)
    (suffix : List Char) (hs : suffix ≠ []) :
    (SetString resolve fs name value suffix none).res = none ∧
    (GetString resolve (SetString resolve fs name value suffix none).fs name false).1
      = Except.ok (trimSpace value) ∧
    trimSpace (trimSpace value) = trimSpace value := by
  have hne := Ne.symm (tempPath_ne_dst (resolve name) suffix hs)
  refine ⟨by simp [SetString, setString, atomicWriteFile], ?_, trimSpace_idem value⟩
  simp [SetString, setString, atomicWriteFile, GetString, getString, readFile,
    FS.lookup_erase, FS.lookup_set, hne, trimSpace_idem]

/-- C3 witness: `SetString` of the bytes of `"  hello  "` into an empty
store succeeds, and `GetString` then returns the bytes of `"hello"`. -/
theorem C3_witness :
    (SetString exResolve exFS exName exValue exSuffix none).res = none ∧
    (GetString exResolve (SetString exResolve exFS exName exValue exSuffix none).fs
        exName false).1 = Except.ok [104, 101, 108, 108, 111] ∧
    trimSpace (trimSpace exValue) = trimSpace exValue := by
  have h := C3_setString_getString_roundtrip_trims exResolve exFS exName exValue
    exSuffix (by decide)
  have hv : trimSpace exValue = [104, 101, 108, 108, 111] := by decide
  exact ⟨h.1, by rw [h.2.1, hv], h.2.2⟩

/-- C4: for every name and every byte sequence (including null and
non-UTF-8 bytes), a successful `SetFile` followed by `GetFile` yields
byte-identical content: no trimming or any other transformation on the
binary path. -/
theorem C4_setFile_getFile_binary_fidelity
    (resolve : FSName → FPath) (fs : FS) (name : FSName) (content : Bytes)
    (suffix : List Char) (cleanupFails : Bool) (hs : suffix ≠ []) :
    (SetFile resolve fs name content suffix none cleanupFails).res = none ∧
    (GetFile resolve (SetFile resolve fs name content suffix none cleanupFails).fs
        name false).1 = Except.ok content := by
  have hne := Ne.symm (tempPath_ne_dst (resolve name) suffix hs)
  refine ⟨by simp [SetFile, setFile], ?_⟩
  cases cleanupFails <;>
    simp [SetFile, setFile, deferCleanup, GetFile, getFile,
      FS.lookup_erase, FS.lookup_set, hne]

/-- C4 witness: storing the payload `[0, 255, 10, 32]` via `SetFile` and
reading it back via `GetFile` returns exactly those bytes. -/
theorem C4_witness :
    (SetFile exResolve exFS exName exBinary exSuffix none false).res = none ∧
    (GetFile exResolve (SetFile exResolve exFS exName exBinary exSuffix none false).fs
        exName false).1 = Except.ok [0, 255, 10, 32] :=
  C4_setFile_getFile_binary_fidelity exResolve exFS exName exBinary exSuffix false
    (by decide)

/-- C5: `GetString` fails with a not-exist error exactly when no file
exists at the resolved path, fails with a non-not-exist I/O error on any
other read failure, and has no side effect on the store's state. -/
theorem C5_getString_error_taxonomy
    (resolve : FSName → FPath) (fs : FS) (name : FSName) (ioFault : Bool) :
    (GetString resolve fs name ioFault).2 = fs ∧
    (fs.lookup (resolve name) = none ↔
      ∃ e, (GetString resolve fs name ioFault).1 = Except.error e
        ∧ e.isNotExist = true) ∧
    (∀ b, fs.lookup (resolve name) = some b → ioFault = true →
      ∃ e, (GetString resolve fs name ioFault).1 = Except.error e
        ∧ e.isNotExist = false) := by
  refine ⟨rfl, ⟨?_, ?_⟩, ?_⟩
  · intro h
    exact ⟨GoErr.io true "open" (resolve name),
      by simp [GetString, getString, readFile, h], rfl⟩
  · rintro ⟨e, he, hne⟩
    cases hl : fs.lookup (resolve name) with
    | none => rfl
    | some b =>
      exfalso
      cases ioFault <;>
        simp [GetString, getString, readFile, hl] at he
      rw [← he] at hne
      simp [GoErr.isNotExist] at hne
  · intro b hb hf
    subst hf
    exact ⟨GoErr.io false "read" (resolve name),
      by simp [GetString, getString, readFile, hb], rfl⟩

/-- C5 witness: on a store holding `db` ↦ `1`, `GetString` with an
injected read fault returns a non-not-exist error; on the empty store it
returns a not-exist error; both calls leave the store unchanged. -/
theorem C5_witness :
    (GetString exResolve exFS1 exName true).2 = exFS1 ∧
    (∃ e, (GetString exResolve exFS exName false).1 = Except.error e
      ∧ e.isNotExist = true) ∧
    (∃ e, (GetString exResolve exFS1 exName true).1 = Except.error e
      ∧ e.isNotExist = false) :=
  ⟨(C5_getString_error_taxonomy exResolve exFS1 exName true).1,
   (C5_getString_error_taxonomy exResolve exFS exName false).2.1.mp (by decide),
   (C5_getString_error_taxonomy exResolve exFS1 exName true).2.2 [49] (by decide) rfl⟩

/-- C6: `RemoveFile(n)` deletes the file at the resolved path and fails
with a not-exist error if no file is present; consequently after a
successful `SetString(n, v)` followed by a successful `RemoveFile(n)`,
`GetString(n)` fails with a not-exist error. -/
theorem C6_removeFile_deletes_and_not_found
    (resolve : FSName → FPath) (fs : FS) (name : FSName) (value : Bytes)
    (suffix : List Char) (ioFault : Bool) (hs : suffix ≠ []) :
    (fs.lookup (resolve name) = none →
      RemoveFile resolve fs name ioFault
        = (some (GoErr.io true "remove" (resolve name)), fs)) ∧
    (∀ b, fs.lookup (resolve name) = some b →
      RemoveFile resolve fs name false = (none, fs.erase (resolve name)) ∧
      (fs.erase (resolve name)).lookup (resolve name) = none) ∧
    ((SetString resolve fs name value suffix none).res = none ∧
      (RemoveFile resolve (SetString resolve fs name value suffix none).fs name false).1
        = none ∧
      ∃ e, (GetString resolve
          (RemoveFile resolve (SetString resolve fs name value suffix none).fs
            name false).2 name false).1
        = Except.error e ∧ e.isNotExist = true) := by
  have hne := Ne.symm (tempPath_ne_dst (resolve name) suffix hs)
  refine ⟨?_, ?_, ?_, ?_, ?_⟩
  · intro h
    simp [RemoveFile, removeFile, h]
  · intro b hb
    constructor
    · simp [RemoveFile, removeFile, hb]
    · simp [FS.lookup_erase]
  · simp [SetString, setString, atomicWriteFile]
  · simp [SetString, setString, atomicWriteFile, RemoveFile, removeFile,
      FS.lookup_erase, FS.lookup_set, hne]
  · refine ⟨GoErr.io true "open" (resolve name), ?_, rfl⟩
    simp [SetString, setString, atomicWriteFile, RemoveFile, removeFile,
      GetString, getString, readFile, FS.lookup_erase, FS.lookup_set, hne]

/-- C6 witness: in the concrete store, removing an absent name fails with
a not-exist error; removing a present name deletes it; and the
set-remove-get chain ends in a not-exist error. -/
theorem C6_witness :
    RemoveFile exResolve exFS exName false
      = (some (GoErr.io true "remove" (exResolve exName)), exFS) ∧
    RemoveFile exResolve exFS1 exName false = (none, exFS1.erase (exResolve exName)) ∧
    (RemoveFile exResolve
        (SetString exResolve exFS exName exValue exSuffix none).fs exName false).1
      = none :=
  ⟨(C6_removeFile_deletes_and_not_found exResolve exFS exName exValue exSuffix false
      (by decide)).1 (by decide),
   ((C6_removeFile_deletes_and_not_found exResolve exFS1 exName exValue exSuffix false
      (by decide)).2.1 [49] (by decide)).1,
   (C6_removeFile_deletes_and_not_found exResolve exFS exName exValue exSuffix false
      (by decide)).2.2.2.1⟩

/-- C7 counterexample: the claim — that both public write entry points
perform temp-file creation, copy, sync and close without holding the
exclusive lock, acquiring it only immediately before the replace — is
false for `SetString` at a concrete input: its whole write protocol runs
between the lock acquisition and the release. -/
theorem C7_counterexample :
    ¬ (prepUnlocked (SetString exResolve exFS exName exValue exSuffix none).trace = true ∧
       prepUnlocked (SetFile exResolve exFS exName exValue exSuffix none false).trace
         = true) := by
  decide

/-- C7 (amended): for the public `SetFile` entry point the exclusive lock
is acquired only immediately before the atomic replace — temp-file
creation, content copy, sync and close run without holding the lock — but
`SetString` acquires the exclusive lock before the whole write protocol
and holds it until return, so all of its preparatory I/O runs under the
lock. -/
theorem C7_amended_lock_placement
    (resolve : FSName → FPath) (fs : FS) (name : FSName) (value content : Bytes)
    (suffix : List Char) (fault : Option WriteStage) (cleanupFails : Bool) :
    prepUnlocked (SetFile resolve fs name content suffix fault cleanupFails).trace
      = true ∧
    lockJustBeforeReplace
      (SetFile resolve fs name content suffix fault cleanupFails).trace = true ∧
    (SetString resolve fs name value suffix fault).trace.head? = some Ev.lock ∧
    (SetString resolve fs name value suffix fault).trace.getLast? = some Ev.unlock ∧
    prepLocked (SetString resolve fs name value suffix fault).trace = true := by
  refine ⟨?_, ?_, ?_, ?_, ?_⟩ <;>
    rcases fault with _ | stage
  case _ => simp [SetFile, setFile, prepUnlocked, withDepth, isPrep]
  case _ =>
    cases stage <;> simp [SetFile, setFile, prepUnlocked, withDepth, isPrep]
  case _ => simp [SetFile, setFile, lockJustBeforeReplace]
  case _ =>
    cases stage <;> simp [SetFile, setFile, lockJustBeforeReplace]
  case _ => simp [SetString]
  case _ =>
    cases stage <;> simp [SetString]
  case _ =>
    simp [SetString, setString, atomicWriteFile, List.getLast?_concat,
      ← List.cons_append]
  case _ =>
    cases stage <;>
      simp [SetString, setString, atomicWriteFile, List.getLast?_concat,
        ← List.cons_append]
  case _ =>
    simp [SetString, setString, atomicWriteFile, prepLocked, withDepth, isPrep]
  case _ =>
    cases stage <;>
      simp [SetString, setString, atomicWriteFile, prepLocked, withDepth, isPrep]

/-- C8: every call through the public `SetFile` entry point performs its
atomic replace while holding the exclusive write lock — `SetFile` is
exactly the internal write path with locking forced on, offering no
opt-out — even though the internal write path, called with the opt-out,
never touches the lock. -/
theorem C8_SetFile_replace_always_locked
    (resolve : FSName → FPath) (fs : FS) (name : FSName) (content : Bytes)
    (suffix : List Char) (fault : Option WriteStage) (cleanupFails : Bool) :
    SetFile resolve fs name content suffix fault cleanupFails
      = setFile resolve fs name content true suffix fault cleanupFails ∧
    replacesLocked (SetFile resolve fs name content suffix fault cleanupFails).trace
      = true ∧
    (setFile resolve fs name content false suffix fault cleanupFails).trace.all
      (fun e => ¬ (e = Ev.lock)) = true := by
  refine ⟨rfl, ?_, ?_⟩ <;> rcases fault with _ | stage
  case _ => simp [SetFile, setFile, replacesLocked, withDepth, isReplaceEv]
  case _ =>
    cases stage <;> simp [SetFile, setFile, replacesLocked, withDepth, isReplaceEv]
  case _ => simp [setFile]
  case _ => cases stage <;> simp [setFile]

/-- C9: on every exit path of the write path after the temporary file has
been created — success or failure at the copy, sync, close or replace
stage — the removal of the temporary file runs as the last (deferred)
best-effort cleanup action, and a failure of that cleanup changes neither
the returned result nor the performed steps. -/
theorem C9_temp_cleanup_every_exit_path
    (resolve : FSName → FPath) (fs : FS) (name : FSName) (content : Bytes)
    (block : Bool) (suffix : List Char) (fault : Option WriteStage)
    (cleanupFails : Bool) (hf : fault ≠ some WriteStage.createTemp) :
    (setFile resolve fs name content block suffix fault cleanupFails).trace.getLast?
      = some (Ev.removeTemp (tempPath (resolve name) suffix)) ∧
    (setFile resolve fs name content block suffix fault true).res
      = (setFile resolve fs name content block suffix fault false).res ∧
    (setFile resolve fs name content block suffix fault true).trace
      = (setFile resolve fs name content block suffix fault false).trace := by
  refine ⟨?_, ?_, ?_⟩ <;> rcases fault with _ | stage
  case _ => cases block <;> simp [setFile]
  case _ =>
    cases stage
    case createTemp => exact absurd rfl hf
    all_goals cases block <;> simp [setFile]
  case _ => simp [setFile]
  case _ =>
    cases stage
    case createTemp => exact absurd rfl hf
    all_goals simp [setFile]
  case _ => simp [setFile]
  case _ =>
    cases stage
    case createTemp => exact absurd rfl hf
    all_goals simp [setFile]

/-- C9 witness: with a copy-stage failure at a concrete input, the trace
ends with the temp-file removal, and the result is the same whether or
not the cleanup itself fails. -/
theorem C9_witness :
    (setFile exResolve exFS exName exBinary true exSuffix
        (some WriteStage.copyContent) true).trace.getLast?
      = some (Ev.removeTemp (tempPath (exResolve exName) exSuffix)) ∧
    (setFile exResolve exFS exName exBinary true exSuffix
        (some WriteStage.copyContent) true).res
      = (setFile exResolve exFS exName exBinary true exSuffix
          (some WriteStage.copyContent) false).res :=
  ⟨(C9_temp_cleanup_every_exit_path exResolve exFS exName exBinary true exSuffix
      (some WriteStage.copyContent) true (by decide)).1,
   (C9_temp_cleanup_every_exit_path exResolve exFS exName exBinary true exSuffix
      (some WriteStage.copyContent) true (by decide)).2.1⟩

/-- C10: for every name and every value consisting only of whitespace
(including the empty string), a successful `SetString` stores empty
(zero-byte) content at the resolved path rather than removing the file,
so a subsequent `GetString` returns the empty string with no error rather
than a not-exist failure. -/
theorem C10_whitespace_only_value_stored_empty
    (resolve : FSName → FPath) (fs : FS) (name : FSName) (value : Bytes)
    (suffix : List Char) (hs : suffix ≠ []) (hv : trimSpace value = []) :
    (SetString resolve fs name value suffix none).res = none ∧
    (SetString resolve fs name value suffix none).fs.lookup (resolve name)
      = some [] ∧
    (GetString resolve (SetString resolve fs name value suffix none).fs name false).1
      = Except.ok [] := by
  have hne := Ne.symm (tempPath_ne_dst (resolve name) suffix hs)
  refine ⟨by simp [SetString, setString, atomicWriteFile], ?_, ?_⟩
  · simp [SetString, setString, atomicWriteFile, hv,
      FS.lookup_erase, FS.lookup_set, hne]
  · simp [SetString, setString, atomicWriteFile, hv, GetString, getString, readFile,
      FS.lookup_erase, FS.lookup_set, hne, trimSpace_nil]

/-- C10 witness: writing the two-space string stores a zero-byte file and
`GetString` then returns the empty value, not a not-exist error. -/
theorem C10_witness :
    (SetString exResolve exFS exName [32, 32] exSuffix none).res = none ∧
    (SetString exResolve exFS exName [32, 32] exSuffix none).fs.lookup
        (exResolve exName) = some [] ∧
    (GetString exResolve
        (SetString exResolve exFS exName [32, 32] exSuffix none).fs exName false).1
      = Except.ok [] :=
  C10_whitespace_only_value_stored_empty exResolve exFS exName [32, 32] exSuffix
    (by decide) (by decide)

end storage
